import Mathlib

/-!
Verification of `mixxx2rekordbox.py` — a one-shot converter from a Mixxx
SQLite library to a rekordbox XML document.

The program is embedded shallowly:
* SQLite query results are passed in as explicit data (`List` of row
  structures, or `Except` values when a claim is about query failure);
* Python `dict`s keyed by track id / name are association lists in
  insertion order (Python dicts preserve insertion order);
* Python `sorted` (Timsort, a stable sort) is modelled by
  `List.insertionSort`, which is extensionally the same function: for a
  total preorder there is exactly one stable sort;
* Python `float` arithmetic on the (integral or decimal) database values
  is modelled by `Rat` arithmetic, and `f"{x:.kf}"` / `round` by explicit
  round-half-to-even on `Rat`;
* a raised exception is modelled by `Except.error`.
-/

/-- Sort direction of the `--sort-by-bpm` option (`'asc'` / `'desc'`). -/
inductive SortOrder where
  | asc
  | desc
deriving DecidableEq, Repr

/-- One value of the per-track dict built by `get_track_details`:
the columns of the `library ⋈ track_locations` join plus the accumulated
`cues` list.  A `none` models SQL `NULL` (Python `None`); the key itself is
always present in the Python dict. -/
structure TrackRecord where
  artist : Option String
  title : Option String
  album : Option String
  year : Option Int
  genre : Option String
  grouping : Option String
  tracknumber : Option Int
  comment : Option String
  samplerate : Option Int
  bitrate : Option Int
  bpm : Option Rat
  datetime_added : Option String
  duration : Option Rat
  location : String
  filesize : Option Int
  cues : List Int
deriving DecidableEq, Repr

/-- One entry of the `collection_data` dict of `get_collections`:
`{'id': …, 'tracks': […]}`. -/
structure CollectionData where
  id : Nat
  tracks : List Nat
deriving DecidableEq, Repr

/-- A `POSITION_MARK` element as emitted by `build_xml`. -/
structure PositionMark where
  name : String
  markType : String
  start : String
  num : String
deriving DecidableEq, Repr

/-- A `TRACK` element of the COLLECTION section, with the attributes of the
`track_attribs` dict and its `POSITION_MARK` children. -/
structure TrackEntry where
  trackID : String
  name : String
  artist : String
  album : String
  grouping : String
  genre : String
  year : String
  trackNumber : String
  comments : String
  location : String
  kind : String
  size : String
  totalTime : String
  averageBpm : String
  bitRate : String
  sampleRate : String
  marks : List PositionMark
deriving DecidableEq, Repr

/-- A per-collection `NODE` of the PLAYLISTS section: its `Name`,
its `Entries` attribute and the `Key` attributes of its `TRACK` children. -/
structure PlaylistNode where
  name : String
  entries : String
  trackKeys : List String
deriving DecidableEq, Repr

/-- The whole document produced by `build_xml`. -/
structure XmlDoc where
  version : String
  productName : String
  productVersion : String
  productCompany : String
  collectionEntries : String
  collection : List TrackEntry
  rootName : String
  rootCount : String
  playlists : List PlaylistNode
deriving DecidableEq, Repr

/-! ### Number formatting (`f"{x:.kf}"`, `round`, `str`) -/

/-- Round the rational `a / b` (with `b ≠ 0`) to the nearest integer, ties
to even — the rounding of Python's `round` and of `float.__format__` with an
`f` conversion.  `Int.ediv`/`Int.emod` give the floor quotient and a
remainder in `[0, b)`, so `2 * r` against `b` compares the fractional part
with `1/2`. -/
def roundHalfEvenInt (a : Int) (b : Nat) : Int :=
  let q := Int.ediv a (b : Int)
  let r := Int.emod a (b : Int)
  if 2 * r < (b : Int) then q
  else if (b : Int) < 2 * r then q + 1
  else if Int.emod q 2 = 0 then q else q + 1

/-- Python `round(q)` on a rational value. -/
def roundHalfEven (q : Rat) : Int :=
  roundHalfEvenInt q.num q.den

/-- Left-pad a digit string with zeros to the given length. -/
def padZeros (len : Nat) (s : String) : String :=
  String.mk (List.replicate (len - s.length) '0') ++ s

/-- `f"{q:.precf}"`: fixed-point rendering with exactly `prec` digits after
the decimal point, rounding half to even.  `q * 10^prec` is
`q.num * 10^prec / q.den`, rounded here as an integer fraction; the sign is
kept even when the magnitude rounds to zero, as Python does for negative
inputs. -/
def fmtFixed (prec : Nat) (q : Rat) : String :=
  let n := roundHalfEvenInt (q.num * ((10 ^ prec : Nat) : Int)) q.den
  let m := n.natAbs
  let ip := m / 10 ^ prec
  let fp := m % 10 ^ prec
  (if q.num < 0 then "-" else "") ++ toString ip ++ "." ++ padZeros prec (toString fp)

/-- `data.get('title') or ""` … : a string field, with `None` (and the falsy
empty string) replaced by the empty string. -/
def defaultStr (o : Option String) : String :=
  match o with
  | none => ""
  | some s => s

/-- `str(x or "")` for an integer column: `None` and `0` both render as the
empty string, any other value as its decimal representation. -/
def strOrEmpty (o : Option Int) : String :=
  match o with
  | none => ""
  | some n => if n = 0 then "" else toString n

/-- `str(x or "0")` for an integer column: `None` and `0` both render as
`"0"`, any other value as its decimal representation. -/
def strOrZero (o : Option Int) : String :=
  match o with
  | none => "0"
  | some n => if n = 0 then "0" else toString n

/-! ### `urllib.parse.quote` (percent escaping of the file path) -/

/-- UTF-8 bytes of a Unicode code point. -/
def utf8Bytes (n : Nat) : List Nat :=
  if n < 0x80 then [n]
  else if n < 0x800 then [0xC0 + n / 0x40, 0x80 + n % 0x40]
  else if n < 0x10000 then
    [0xE0 + n / 0x1000, 0x80 + (n / 0x40) % 0x40, 0x80 + n % 0x40]
  else
    [0xF0 + n / 0x40000, 0x80 + (n / 0x1000) % 0x40, 0x80 + (n / 0x40) % 0x40,
      0x80 + n % 0x40]

/-- Uppercase hexadecimal digit. -/
def hexDigit (n : Nat) : Char :=
  if n < 10 then Char.ofNat (48 + n) else Char.ofNat (55 + n)

/-- `quote` escapes every character outside `A-Za-z0-9_.-~` and the default
safe character `/` as percent-encoded UTF-8 bytes. -/
def quoteChar (c : Char) : List Char :=
  if c.isAlphanum || c = '_' || c = '.' || c = '-' || c = '~' || c = '/' then [c]
  else (utf8Bytes c.toNat).flatMap (fun b => ['%', hexDigit (b / 16), hexDigit (b % 16)])

/-- `urllib.parse.quote(path)` with the default `safe='/'`. -/
def pyQuote (s : String) : String :=
  String.mk (s.toList.flatMap quoteChar)

/-! ### `build_xml` -/

/-- `f"{data.get('bpm', 0.0):.2f}"`.  The `'bpm'` key is always present in a
row dict, so the `0.0` default of `.get` never applies: a SQL `NULL` bpm
reaches the format specifier as `None` and `format` raises
`TypeError: unsupported format string passed to NoneType.__format__`. -/
def averageBpmAttr (bpm : Option Rat) : Except String String :=
  match bpm with
  | none => Except.error "TypeError: unsupported format string passed to NoneType.__format__"
  | some b => Except.ok (fmtFixed 2 b)

/-- `float(data.get('samplerate', 44100.0) or 44100.0)`: the sample rate
used for cue conversion, `44100` when the track's own rate is `NULL` or
`0`. -/
def cueSampleRate (sr : Option Int) : Rat :=
  match sr with
  | none => 44100
  | some n => if n = 0 then 44100 else (n : Rat)

/-- `pos = (cue_pos / 2.0) / samplerate` as an exact rational.
`cueSampleRate` always returns an integer rational `s` with `s.num ≠ 0`,
and `p / 2 / s = p / (2 * s.num)`, built here with `mkRat` (sign moved to
the numerator when the rate is negative); `cueSeconds_eq_div` below proves
this equal to the literal division formula of the source. -/
def cueSeconds (sr : Option Int) (cue_pos : Int) : Rat :=
  let s := cueSampleRate sr
  mkRat (if s.num < 0 then -cue_pos else cue_pos) (2 * s.num.natAbs)

/-- One `POSITION_MARK` child: `Start = (rawPosition / 2.0) / sampleRate`,
formatted with three decimal digits; `Name`, `Type`, `Num` are fixed. -/
def markOf (sr : Option Int) (cue_pos : Int) : PositionMark :=
  { name := ""
    markType := "0"
    start := fmtFixed 3 (cueSeconds sr cue_pos)
    num := "-1" }

/-- The `track_attribs` dict together with the `POSITION_MARK` children,
given the already-formatted `AverageBpm` value. -/
def trackEntryCore (track_id : Nat) (data : TrackRecord) (avg : String) : TrackEntry :=
  { trackID := toString track_id
    name := defaultStr data.title
    artist := defaultStr data.artist
    album := defaultStr data.album
    grouping := defaultStr data.grouping
    genre := defaultStr data.genre
    year := strOrEmpty data.year
    trackNumber := strOrEmpty data.tracknumber
    comments := defaultStr data.comment
    location := "file://localhost" ++ pyQuote data.location
    kind := "MP3 File"
    size := strOrZero data.filesize
    totalTime := toString (roundHalfEven (data.duration.getD 0))
    averageBpm := avg
    bitRate := strOrZero data.bitrate
    sampleRate := strOrZero data.samplerate
    marks := (List.insertionSort (fun a b => a ≤ b) data.cues).map (markOf data.samplerate) }

/-- Build one `TRACK` node of the COLLECTION section; formatting a `NULL`
bpm raises, which aborts `build_xml`. -/
def buildTrackEntry (track_id : Nat) (data : TrackRecord) : Except String TrackEntry :=
  match averageBpmAttr data.bpm with
  | Except.error e => Except.error e
  | Except.ok avg => Except.ok (trackEntryCore track_id data avg)

/-- `sorted(track_details.items())`: the items of the track dict sorted by
key (keys are unique in a dict, so the tuple comparison never inspects the
values). -/
def sortByKey (td : List (Nat × TrackRecord)) : List (Nat × TrackRecord) :=
  List.insertionSort (fun p q => p.1 ≤ q.1) td

/-- The `for track_id, data in sorted(track_details.items())` loop: builds
the TRACK nodes in order, stopping at the first raised exception. -/
def buildCollectionList : List (Nat × TrackRecord) → Except String (List TrackEntry)
  | [] => Except.ok []
  | p :: rest =>
    match buildTrackEntry p.1 p.2 with
    | Except.error e => Except.error e
    | Except.ok entry =>
      match buildCollectionList rest with
      | Except.error e => Except.error e
      | Except.ok entries => Except.ok (entry :: entries)

/-- The COLLECTION section of the document. -/
def buildCollection (td : List (Nat × TrackRecord)) : Except String (List TrackEntry) :=
  buildCollectionList (sortByKey td)

/-- The sort key of the crate-mode bpm sort:
`track_details.get(tid, {}).get('bpm', 0.0) or 0.0` — a missing record, a
`NULL` bpm and a zero bpm all yield `0.0`. -/
def bpmKey (td : List (Nat × TrackRecord)) (tid : Nat) : Rat :=
  match td.lookup tid with
  | none => 0
  | some r => r.bpm.getD 0

/-- The reference order of one NODE's `TRACK` children: in crate mode with a
requested sort order, the stored list stably sorted by `bpmKey` in the
requested direction (`sorted(..., key=…, reverse=(sort_order == 'desc'))`);
otherwise the stored list unchanged. -/
def orderTracks (td : List (Nat × TrackRecord)) (is_playlist_mode : Bool)
    (sort_order : Option SortOrder) (tracks : List Nat) : List Nat :=
  match is_playlist_mode, sort_order with
  | false, some SortOrder.asc =>
    List.insertionSort (fun a b => bpmKey td a ≤ bpmKey td b) tracks
  | false, some SortOrder.desc =>
    List.insertionSort (fun a b => bpmKey td b ≤ bpmKey td a) tracks
  | _, _ => tracks

/-- `sorted(collections.items())`: collections sorted alphabetically by
name (names are unique dict keys). -/
def sortByName (cs : List (String × CollectionData)) : List (String × CollectionData) :=
  List.insertionSort (fun p q => p.1 ≤ q.1) cs

/-- The body of the `for name, data in sorted(collections.items())` loop for
one collection: the emitted NODE (whose `Entries` is the stored length, and
whose child order is `orderTracks` via a rebound local `track_list`),
paired with the state of the collection's data after the iteration — the
loop only reads `data['tracks']`; `sorted` returns a fresh list. -/
def nodeStep (td : List (Nat × TrackRecord)) (is_playlist_mode : Bool)
    (sort_order : Option SortOrder) (p : String × CollectionData) :
    PlaylistNode × (String × CollectionData) :=
  let track_list := p.2.tracks
  let entries := toString track_list.length
  let track_list := orderTracks td is_playlist_mode sort_order track_list
  ({ name := p.1, entries := entries, trackKeys := track_list.map (fun tid => toString tid) }, p)

/-- `build_xml(track_details, collections, is_playlist_mode, sort_order)`.
The first component is the document, or the propagated exception when
formatting a `NULL` bpm raised.  The second component is the state of the
`collections` argument after the call (each stored entry replaced by what
the NODE loop left of it). -/
def build_xml (track_details : List (Nat × TrackRecord))
    (collections : List (String × CollectionData))
    (is_playlist_mode : Bool) (sort_order : Option SortOrder) :
    Except String XmlDoc × List (String × CollectionData) :=
  match buildCollection track_details with
  | Except.error e => (Except.error e, collections)
  | Except.ok coll =>
    (Except.ok
      { version := "1.0.0"
        productName := "rekordbox"
        productVersion := "6.8.6"
        productCompany := "AlphaTheta"
        collectionEntries := toString track_details.length
        collection := coll
        rootName := "ROOT"
        rootCount := toString collections.length
        playlists := (sortByName collections).map
          (fun p => (nodeStep track_details is_playlist_mode sort_order p).1) },
    collections.map (fun p => (p.1, (nodeStep track_details is_playlist_mode sort_order p).2.2)))

/-! ### `get_collections` -/

/-- Keep-first deduplication: the key order of a Python dict built by
repeated assignment (first insertion fixes the position). -/
def dedupFirst : List String → List String
  | [] => []
  | n :: rest => n :: (dedupFirst rest).filter (fun m => m ≠ n)

/-- The `final_names` selection of `get_collections`, applied to the fetched
`all_db_items` dict (association list `name ↦ id` in query order):
`include_names is not None` keeps the given names that exist in the
database; else a non-empty (truthy) `exclude_names` keeps the database names
not excluded; else all names are kept. -/
def final_names (all_db_items : List (String × Nat))
    (include_names : Option (List String)) (exclude_names : List String) : List String :=
  match include_names with
  | some names => names.filter (fun n => (all_db_items.lookup n).isSome)
  | none =>
    if exclude_names.isEmpty then all_db_items.map Prod.fst
    else (all_db_items.map Prod.fst).filter (fun n => ¬ exclude_names.contains n)

/-- `collection_data = {name: {'id': all_db_items[name], 'tracks': []} for
name in final_names}`.  The names always exist in `all_db_items`, so the
`getD 0` fallback is never taken. -/
def initCollections (all_db_items : List (String × Nat)) (names : List String) :
    List (String × CollectionData) :=
  (dedupFirst names).map (fun n => (n, { id := (all_db_items.lookup n).getD 0, tracks := [] }))

/-- `id_to_name = {v['id']: k for k, v in collection_data.items()}` — on a
duplicated id the later assignment wins, hence the reverse search. -/
def idToName (cd : List (String × CollectionData)) (i : Nat) : Option String :=
  (cd.reverse.find? (fun p => p.2.id == i)).map Prod.fst

/-- Appending one link row's track id to the named collection's list. -/
def addTrackRow (cd : List (String × CollectionData)) (name : String) (tid : Nat) :
    List (String × CollectionData) :=
  cd.map (fun p => if p.1 = name then (p.1, { p.2 with tracks := p.2.tracks ++ [tid] }) else p)

/-- `all_track_ids.add(tid)`: a Python `set`, modelled as a duplicate-free
list in insertion order. -/
def insertSet (s : List Nat) (x : Nat) : List Nat :=
  if x ∈ s then s else s ++ [x]

/-- The body of the membership-row loop: resolve the row's collection id to
a name through `id_to_name` (built once, from the initial mapping), append
the track id and record it in the id set.  The `if name:` truthiness check
in the source skips rows whose resolved name is the (falsy) empty string. -/
def linkStep (cd0 : List (String × CollectionData))
    (st : List (String × CollectionData) × List Nat) (row : Nat × Nat) :
    List (String × CollectionData) × List Nat :=
  match idToName cd0 row.1 with
  | some name =>
    if name = "" then st
    else (addTrackRow st.1 name row.2, insertSet st.2 row.2)
  | none => st

/-- `get_collections` after its two queries: `all_db_items` is the fetched
name/id listing, `link_rows` the fetched membership rows
(`fk_id, track_id`, position-ordered for playlists).  Returns the
`collection_data` mapping and the union of referenced track ids. -/
def get_collections (all_db_items : List (String × Nat)) (link_rows : List (Nat × Nat))
    (include_names : Option (List String)) (exclude_names : List String) :
    List (String × CollectionData) × List Nat :=
  let fnames := final_names all_db_items include_names exclude_names
  if fnames.isEmpty then ([], [])
  else
    let cd0 := initCollections all_db_items fnames
    link_rows.foldl (linkStep cd0) (cd0, [])

/-! ### `get_track_details` -/

/-- One row of the `library ⋈ track_locations` metadata query. -/
structure LibRow where
  id : Nat
  artist : Option String
  title : Option String
  album : Option String
  year : Option Int
  genre : Option String
  grouping : Option String
  tracknumber : Option Int
  comment : Option String
  samplerate : Option Int
  bitrate : Option Int
  bpm : Option Rat
  datetime_added : Option String
  duration : Option Rat
  location : String
  filesize : Option Int
deriving DecidableEq, Repr

/-- One row of the cues query (`track_id, position` with `type = 1`). -/
structure CueRow where
  track_id : Nat
  position : Int
deriving DecidableEq, Repr

/-- `track_details[row['id']] = dict(row); ...['cues'] = []`. -/
def mkRecord (r : LibRow) : TrackRecord :=
  { artist := r.artist
    title := r.title
    album := r.album
    year := r.year
    genre := r.genre
    grouping := r.grouping
    tracknumber := r.tracknumber
    comment := r.comment
    samplerate := r.samplerate
    bitrate := r.bitrate
    bpm := r.bpm
    datetime_added := r.datetime_added
    duration := r.duration
    location := r.location
    filesize := r.filesize
    cues := [] }

/-- Python dict assignment `m[k] = v` on an insertion-ordered association
list: overwrite in place when the key exists, append otherwise. -/
def dictInsert (m : List (Nat × TrackRecord)) (k : Nat) (v : TrackRecord) :
    List (Nat × TrackRecord) :=
  if k ∈ m.map Prod.fst then m.map (fun p => if p.1 = k then (k, v) else p)
  else m ++ [(k, v)]

/-- `if tid in track_details: track_details[tid]['cues'].append(pos)`. -/
def addCue (m : List (Nat × TrackRecord)) (tid : Nat) (pos : Int) :
    List (Nat × TrackRecord) :=
  if tid ∈ m.map Prod.fst then
    m.map (fun p => if p.1 = tid then (p.1, { p.2 with cues := p.2.cues ++ [pos] }) else p)
  else m

/-- `get_track_details(conn, track_ids)`: the two query outcomes are passed
in explicitly.  An empty id set returns `{}` before any query; a
`sqlite3.Error` from either query is caught and whatever was accumulated up
to that point is returned (the metadata query runs first, so a failing cues
query leaves the metadata rows, each with its `cues` list still empty). -/
def get_track_details (track_ids : List Nat)
    (libraryQueryResult : Except String (List LibRow))
    (cuesQueryResult : Except String (List CueRow)) : List (Nat × TrackRecord) :=
  if track_ids.isEmpty then []
  else
    match libraryQueryResult with
    | Except.error _ => []
    | Except.ok rows =>
      let td := rows.foldl (fun m r => dictInsert m r.id (mkRecord r)) []
      match cuesQueryResult with
      | Except.error _ => td
      | Except.ok cueRows => cueRows.foldl (fun m c => addCue m c.track_id c.position) td

/-! ### Shared fixtures and helper lemmas -/

instance {ε α : Type} [DecidableEq ε] [DecidableEq α] : DecidableEq (Except ε α) := fun x y =>
  match x, y with
  | Except.error e, Except.error f =>
    if h : e = f then isTrue (by rw [h]) else isFalse (fun hh => by cases hh; exact h rfl)
  | Except.error _, Except.ok _ => isFalse (fun hh => by cases hh)
  | Except.ok _, Except.error _ => isFalse (fun hh => by cases hh)
  | Except.ok a, Except.ok b =>
    if h : a = b then isTrue (by rw [h]) else isFalse (fun hh => by cases hh; exact h rfl)

/-- A track row with every nullable column `NULL` except a zero bpm. -/
def baseRec : TrackRecord :=
  { artist := none, title := none, album := none, year := none, genre := none,
    grouping := none, tracknumber := none, comment := none, samplerate := none,
    bitrate := none, bpm := some 0, datetime_added := none, duration := none,
    location := "", filesize := none, cues := [] }

/-- The worked example of the spec: bpms `{5: 120, 2: 140, 9: 100}`. -/
def tdEx : List (Nat × TrackRecord) :=
  [(5, { baseRec with bpm := some 120 }),
   (2, { baseRec with bpm := some 140 }),
   (9, { baseRec with bpm := some 100 })]

theorem buildTrackEntry_ok {track_id : Nat} {data : TrackRecord} {b : Rat}
    (h : data.bpm = some b) :
    buildTrackEntry track_id data = Except.ok (trackEntryCore track_id data (fmtFixed 2 b)) := by
  simp [buildTrackEntry, averageBpmAttr, h]

/-- The TRACK node built for a record whose bpm is present. -/
def entryOk (p : Nat × TrackRecord) : TrackEntry :=
  trackEntryCore p.1 p.2 (fmtFixed 2 (p.2.bpm.getD 0))

theorem buildCollectionList_ok (l : List (Nat × TrackRecord))
    (h : ∀ p ∈ l, p.2.bpm ≠ none) :
    buildCollectionList l = Except.ok (l.map entryOk) := by
  induction l with
  | nil => rfl
  | cons p rest ih =>
    obtain ⟨b, hb⟩ := Option.ne_none_iff_exists'.mp (h p (List.mem_cons_self ..))
    rw [List.map_cons, buildCollectionList, buildTrackEntry_ok hb,
      ih (fun q hq => h q (List.mem_cons_of_mem _ hq))]
    simp [entryOk, hb]

theorem build_xml_ok (td : List (Nat × TrackRecord)) (cs : List (String × CollectionData))
    (m : Bool) (so : Option SortOrder) (hb : ∀ p ∈ td, p.2.bpm ≠ none) :
    (build_xml td cs m so).1 = Except.ok
      { version := "1.0.0", productName := "rekordbox", productVersion := "6.8.6",
        productCompany := "AlphaTheta",
        collectionEntries := toString td.length,
        collection := (sortByKey td).map entryOk,
        rootName := "ROOT",
        rootCount := toString cs.length,
        playlists := (sortByName cs).map (fun p => (nodeStep td m so p).1) } := by
  have hs : ∀ p ∈ sortByKey td, p.2.bpm ≠ none := fun p hp =>
    hb p ((List.mem_insertionSort _).mp hp)
  simp [build_xml, buildCollection, buildCollectionList_ok _ hs]

theorem orderTracks_perm (td : List (Nat × TrackRecord)) (m : Bool)
    (so : Option SortOrder) (tracks : List Nat) :
    (orderTracks td m so tracks).Perm tracks := by
  cases m <;> rcases so with _ | o
  · exact List.Perm.refl _
  · cases o <;> exact List.perm_insertionSort _ _
  · exact List.Perm.refl _
  · cases o <;> exact List.Perm.refl _

theorem orderTracks_id_of_playlist_or_none (td : List (Nat × TrackRecord)) (m : Bool)
    (so : Option SortOrder) (tracks : List Nat) (hcase : m = true ∨ so = none) :
    orderTracks td m so tracks = tracks := by
  rcases hcase with h | h
  · subst h; rfl
  · subst h; cases m <;> rfl

/-- Stability of the stable sort: the elements satisfying a predicate that
ties the ordering keep exactly their relative order from the input. -/
theorem insertionSort_filter_tied {α : Type} (r : α → α → Prop) [DecidableRel r]
    [IsTotal α r] [IsTrans α r] (l : List α) (p : α → Bool)
    (hp : ∀ a b, p a = true → p b = true → r a b) :
    (List.insertionSort r l).filter p = l.filter p := by
  have hpw : (l.filter p).Pairwise r :=
    List.pairwise_of_forall_mem_list (fun a ha b hb =>
      hp a b (List.of_mem_filter ha) (List.of_mem_filter hb))
  have hsub : ((l.filter p).filter p).Sublist ((List.insertionSort r l).filter p) :=
    List.Sublist.filter p (List.sublist_insertionSort hpw (List.filter_sublist l))
  rw [List.filter_filter] at hsub
  simp only [Bool.and_self] at hsub
  have hperm : ((List.insertionSort r l).filter p).Perm (l.filter p) :=
    List.Perm.filter p (List.perm_insertionSort r l)
  exact (hsub.eq_of_length hperm.length_eq.symm).symm

/-- The comparison direction of the crate-mode bpm sort: `≤` on the keys
for `'asc'`, reversed for `'desc'`. -/
def dirLe (td : List (Nat × TrackRecord)) (ord : SortOrder) (a b : Nat) : Prop :=
  match ord with
  | SortOrder.asc => bpmKey td a ≤ bpmKey td b
  | SortOrder.desc => bpmKey td b ≤ bpmKey td a

/-! ### Claim theorems -/

/-- C1 (code bug): `AverageBpm` is the bpm formatted with two decimal
digits — `128.5` does render `"128.50"` — but a `NULL` (None) bpm does not
render `"0.00"`: the `'bpm'` key is always present in the row dict, so
`data.get('bpm', 0.0)` returns `None` and `f"{None:.2f}"` raises a
`TypeError`, which propagates out of `build_xml`. -/
theorem build_xml_averageBpm_null_raises :
    (buildTrackEntry 1 { baseRec with bpm := some (mkRat 257 2) })
      = Except.ok (trackEntryCore 1 { baseRec with bpm := some (mkRat 257 2) } "128.50") ∧
    (buildTrackEntry 1 { baseRec with bpm := none })
      = Except.error "TypeError: unsupported format string passed to NoneType.__format__" ∧
    (build_xml [(1, { baseRec with bpm := none })] [] false none).1
      = Except.error "TypeError: unsupported format string passed to NoneType.__format__" := by
  refine ⟨?_, ?_, ?_⟩ <;> decide

/-- C9: a falsy column value renders exactly like `NULL`: the integer `0`
in `year` or `tracknumber` renders `""`, and `0` in `filesize`, `bitrate`
or `samplerate` renders `"0"` — in each case the emitted TRACK node is
identical to the one for a `NULL` value, so a genuine zero year is
indistinguishable from a missing one. -/
theorem build_xml_falsy_rendering (tid : Nat) (r : TrackRecord) :
    buildTrackEntry tid { r with year := some 0 } = buildTrackEntry tid { r with year := none } ∧
    buildTrackEntry tid { r with tracknumber := some 0 }
      = buildTrackEntry tid { r with tracknumber := none } ∧
    buildTrackEntry tid { r with filesize := some 0 }
      = buildTrackEntry tid { r with filesize := none } ∧
    buildTrackEntry tid { r with bitrate := some 0 }
      = buildTrackEntry tid { r with bitrate := none } ∧
    buildTrackEntry tid { r with samplerate := some 0 }
      = buildTrackEntry tid { r with samplerate := none } ∧
    strOrEmpty (some 0) = "" ∧ strOrEmpty none = "" ∧
    strOrZero (some 0) = "0" ∧ strOrZero none = "0" := by
  have hmark : markOf (some 0) = markOf none := by
    funext p; simp [markOf, cueSeconds, cueSampleRate]
  refine ⟨?_, ?_, ?_, ?_, ?_, rfl, rfl, rfl, rfl⟩ <;>
    cases hb : r.bpm <;>
      simp [buildTrackEntry, averageBpmAttr, trackEntryCore, strOrEmpty, strOrZero, hb, hmark]

/-- C10: `build_xml` never mutates its `collections` argument: the state of
the mapping after the call (second component of the embedding, which
threads each collection's data through the NODE loop) is exactly the input
— the crate-mode sort is `sorted(...)`, which returns a fresh list, and the
loop only reads `data['tracks']`. -/
theorem build_xml_no_mutation (td : List (Nat × TrackRecord))
    (cs : List (String × CollectionData)) (m : Bool) (so : Option SortOrder) :
    (build_xml td cs m so).2 = cs := by
  have hstep : ∀ p : String × CollectionData, (p.1, (nodeStep td m so p).2.2) = p :=
    fun p => rfl
  unfold build_xml
  cases h : buildCollection td with
  | error e => rfl
  | ok coll => simp [hstep]

/-- C4: in playlist mode, or with no sort order requested, every exported
NODE lists its member track ids exactly in the collection's stored order,
whatever the bpm values are. -/
theorem build_xml_preserves_stored_order (td : List (Nat × TrackRecord))
    (cs : List (String × CollectionData)) (m : Bool) (so : Option SortOrder)
    (hcase : m = true ∨ so = none) (hb : ∀ p ∈ td, p.2.bpm ≠ none) :
    ∃ doc, (build_xml td cs m so).1 = Except.ok doc ∧
      doc.playlists = (sortByName cs).map (fun p =>
        { name := p.1, entries := toString p.2.tracks.length,
          trackKeys := p.2.tracks.map (fun tid => toString tid) }) := by
  refine ⟨_, build_xml_ok td cs m so hb, ?_⟩
  simp only [nodeStep, orderTracks_id_of_playlist_or_none td m so _ hcase]

/-- Witness for C4 at a concrete playlist-mode input. -/
theorem build_xml_preserves_stored_order_witness :
    ((true : Bool) = true ∨ (some SortOrder.asc : Option SortOrder) = none) ∧
    (∀ p ∈ tdEx, p.2.bpm ≠ none) ∧
    ∃ doc, (build_xml tdEx [("L", ⟨3, [9, 5, 2, 5]⟩)] true (some SortOrder.asc)).1
        = Except.ok doc ∧
      doc.playlists = (sortByName [("L", ⟨3, [9, 5, 2, 5]⟩)]).map (fun p =>
        { name := p.1, entries := toString p.2.tracks.length,
          trackKeys := p.2.tracks.map (fun tid => toString tid) }) :=
  ⟨Or.inl rfl, by decide,
    build_xml_preserves_stored_order tdEx [("L", ⟨3, [9, 5, 2, 5]⟩)] true (some SortOrder.asc)
      (Or.inl rfl) (by decide)⟩

/-- C2: the COLLECTION section has exactly one TRACK node per track id
present in the metadata mapping, in strictly ascending id order, and its
`Entries` attribute counts the records actually present (which is also the
number of TRACK nodes emitted). -/
theorem build_xml_collection_sorted_unique (td : List (Nat × TrackRecord))
    (cs : List (String × CollectionData)) (m : Bool) (so : Option SortOrder)
    (hnd : (td.map Prod.fst).Nodup) (hb : ∀ p ∈ td, p.2.bpm ≠ none) :
    ∃ doc, (build_xml td cs m so).1 = Except.ok doc ∧
      doc.collectionEntries = toString td.length ∧
      doc.collectionEntries = toString doc.collection.length ∧
      ∃ ids : List Nat,
        doc.collection.map TrackEntry.trackID = ids.map (fun t => toString t) ∧
        ids.Pairwise (fun a b => a < b) ∧
        ids.Perm (td.map Prod.fst) ∧
        ∀ t ∈ td.map Prod.fst, ids.count t = 1 := by
  have hsorted : (sortByKey td).Pairwise (fun p q => p.1 ≤ q.1) := by
    haveI : IsTotal (Nat × TrackRecord) (fun p q => p.1 ≤ q.1) :=
      ⟨fun a b => Nat.le_total a.1 b.1⟩
    haveI : IsTrans (Nat × TrackRecord) (fun p q => p.1 ≤ q.1) :=
      ⟨fun a b c h1 h2 => Nat.le_trans h1 h2⟩
    exact List.sorted_insertionSort _ td
  have hperm : ((sortByKey td).map Prod.fst).Perm (td.map Prod.fst) :=
    List.Perm.map Prod.fst (List.perm_insertionSort _ td)
  have hnodup : ((sortByKey td).map Prod.fst).Nodup := hperm.symm.nodup hnd
  have hle : ((sortByKey td).map Prod.fst).Pairwise (fun a b => a ≤ b) :=
    List.Pairwise.map Prod.fst (fun a b h => h) hsorted
  refine ⟨_, build_xml_ok td cs m so hb, rfl, ?_, (sortByKey td).map Prod.fst, ?_, ?_, hperm, ?_⟩
  · simp [sortByKey, List.length_insertionSort]
  · simp [List.map_map, entryOk, trackEntryCore]
  · exact List.Sorted.lt_of_le hle hnodup
  · exact fun t ht => List.count_eq_one_of_mem hnodup (hperm.mem_iff.mpr ht)

/-- Witness for C2 at a concrete two-track mapping. -/
theorem build_xml_collection_sorted_unique_witness :
    ((([(2, baseRec), (1, { baseRec with bpm := some 1 })] :
        List (Nat × TrackRecord)).map Prod.fst).Nodup) ∧
    (∀ p ∈ ([(2, baseRec), (1, { baseRec with bpm := some 1 })] :
        List (Nat × TrackRecord)), p.2.bpm ≠ none) ∧
    (∃ doc, (build_xml [(2, baseRec), (1, { baseRec with bpm := some 1 })] [] false none).1
        = Except.ok doc ∧
      doc.collectionEntries
        = toString ([(2, baseRec), (1, { baseRec with bpm := some 1 })] :
            List (Nat × TrackRecord)).length ∧
      doc.collectionEntries = toString doc.collection.length ∧
      ∃ ids : List Nat,
        doc.collection.map TrackEntry.trackID = ids.map (fun t => toString t) ∧
        ids.Pairwise (fun a b => a < b) ∧
        ids.Perm (([(2, baseRec), (1, { baseRec with bpm := some 1 })] :
          List (Nat × TrackRecord)).map Prod.fst) ∧
        ∀ t ∈ (([(2, baseRec), (1, { baseRec with bpm := some 1 })] :
          List (Nat × TrackRecord)).map Prod.fst), ids.count t = 1) :=
  ⟨by decide, by decide,
    build_xml_collection_sorted_unique [(2, baseRec), (1, { baseRec with bpm := some 1 })]
      [] false none (by decide) (by decide)⟩

/-- C3: in crate mode with a requested sort order, the exported order of a
NODE's member ids is a permutation of the stored list, sorted by each
track's bpm in the requested direction (a missing record or a `NULL` bpm
counts as bpm 0), ties keeping their stored relative order (stability,
stated via the tied-filter characterisation); the spec's worked example
`[5, 2, 9]` with bpms `{5: 120, 2: 140, 9: 100}` sorts ascending to
`[9, 5, 2]`. -/
theorem build_xml_crate_bpm_sort (td : List (Nat × TrackRecord)) (tracks : List Nat)
    (ord : SortOrder) :
    (orderTracks td false (some ord) tracks).Perm tracks ∧
    (orderTracks td false (some ord) tracks).Pairwise (dirLe td ord) ∧
    (∀ k : Rat, (orderTracks td false (some ord) tracks).filter (fun t => bpmKey td t == k)
        = tracks.filter (fun t => bpmKey td t == k)) ∧
    (∀ t, td.lookup t = none → bpmKey td t = 0) ∧
    (∀ t r, td.lookup t = some r → r.bpm = none → bpmKey td t = 0) ∧
    orderTracks tdEx false (some SortOrder.asc) [5, 2, 9] = [9, 5, 2] := by
  refine ⟨orderTracks_perm .., ?_, ?_, ?_, ?_, by decide⟩
  · cases ord with
    | asc =>
      haveI : IsTotal Nat (fun a b => bpmKey td a ≤ bpmKey td b) :=
        ⟨fun a b => le_total _ _⟩
      haveI : IsTrans Nat (fun a b => bpmKey td a ≤ bpmKey td b) :=
        ⟨fun a b c h1 h2 => le_trans h1 h2⟩
      exact (List.sorted_insertionSort
        (fun a b => bpmKey td a ≤ bpmKey td b) tracks).imp (fun h => h)
    | desc =>
      haveI : IsTotal Nat (fun a b => bpmKey td b ≤ bpmKey td a) :=
        ⟨fun a b => (le_total _ _).symm⟩
      haveI : IsTrans Nat (fun a b => bpmKey td b ≤ bpmKey td a) :=
        ⟨fun a b c h1 h2 => le_trans h2 h1⟩
      exact (List.sorted_insertionSort
        (fun a b => bpmKey td b ≤ bpmKey td a) tracks).imp (fun h => h)
  · intro k
    cases ord with
    | asc =>
      haveI : IsTotal Nat (fun a b => bpmKey td a ≤ bpmKey td b) :=
        ⟨fun a b => le_total _ _⟩
      haveI : IsTrans Nat (fun a b => bpmKey td a ≤ bpmKey td b) :=
        ⟨fun a b c h1 h2 => le_trans h1 h2⟩
      exact insertionSort_filter_tied (fun a b => bpmKey td a ≤ bpmKey td b) tracks
        (fun t => bpmKey td t == k)
        (fun a b ha hb => by
          show bpmKey td a ≤ bpmKey td b
          rw [beq_iff_eq.mp ha, beq_iff_eq.mp hb])
    | desc =>
      haveI : IsTotal Nat (fun a b => bpmKey td b ≤ bpmKey td a) :=
        ⟨fun a b => (le_total _ _).symm⟩
      haveI : IsTrans Nat (fun a b => bpmKey td b ≤ bpmKey td a) :=
        ⟨fun a b c h1 h2 => le_trans h2 h1⟩
      exact insertionSort_filter_tied (fun a b => bpmKey td b ≤ bpmKey td a) tracks
        (fun t => bpmKey td t == k)
        (fun a b ha hb => by
          show bpmKey td b ≤ bpmKey td a
          rw [beq_iff_eq.mp ha, beq_iff_eq.mp hb])
  · intro t h; simp [bpmKey, h]
  · intro t r h hbpm; simp [bpmKey, h, hbpm]

/-- The `mkRat` construction in `cueSeconds` computes exactly the source's
`(rawPosition / 2.0) / sampleRate`. -/
theorem cueSeconds_eq_div (sr : Option Int) (p : Int) :
    cueSeconds sr p = ((p : Rat) / 2) / cueSampleRate sr := by
  have main : ∀ s : Int, s ≠ 0 →
      mkRat (if ((s : Int) : Rat).num < 0 then -p else p) (2 * ((s : Int) : Rat).num.natAbs)
        = ((p : Rat) / 2) / ((s : Int) : Rat) := by
    intro s hs
    rw [Rat.num_intCast]
    have hs' : ((s : Int) : Rat) ≠ 0 := Int.cast_ne_zero.mpr hs
    rcases lt_or_gt_of_ne hs with h | h
    · rw [if_pos h, Rat.mkRat_eq_div]
      push_cast [Int.cast_natAbs]
      rw [abs_of_neg (show ((s : Int) : Rat) < 0 by exact_mod_cast h)]
      field_simp
    · rw [if_neg (by omega : ¬ s < 0), Rat.mkRat_eq_div]
      push_cast [Int.cast_natAbs]
      rw [abs_of_pos (show (0 : Rat) < ((s : Int) : Rat) by exact_mod_cast h)]
      field_simp
  have h44 : ((44100 : Rat)) = ((44100 : Int) : Rat) := by norm_num
  rcases sr with _ | n
  · simp only [cueSeconds, cueSampleRate, h44]
    exact main 44100 (by norm_num)
  · by_cases hn : n = 0
    · subst hn
      simp only [cueSeconds, cueSampleRate, if_pos rfl, h44]
      exact main 44100 (by norm_num)
    · simp only [cueSeconds, cueSampleRate, if_neg hn]
      exact main n hn

/-- C5: each raw cue position `p` yields a `POSITION_MARK` whose `Start` is
`(p / 2.0) / sampleRate` formatted with three decimal digits, where the
sample rate is the track's own rate or `44100` when that is `NULL` or zero;
a TRACK's marks are emitted in ascending order of raw position; and the
worked example `p = 88200`, `samplerate = 44100` produces `"1.000"`. -/
theorem build_xml_cue_position_marks (track_id : Nat) (data : TrackRecord)
    (hb : data.bpm ≠ none) :
    ∃ e, buildTrackEntry track_id data = Except.ok e ∧
      (∃ ps : List Int, ps.Perm data.cues ∧ ps.Pairwise (fun a b => a ≤ b) ∧
        e.marks = ps.map (markOf data.samplerate)) ∧
      (∀ (sr : Option Int) (p : Int),
        (markOf sr p).start = fmtFixed 3 (((p : Rat) / 2) / cueSampleRate sr)) ∧
      cueSampleRate none = 44100 ∧ cueSampleRate (some 0) = 44100 ∧
      (∀ n : Int, n ≠ 0 → cueSampleRate (some n) = ((n : Int) : Rat)) ∧
      (markOf (some 44100) 88200).start = "1.000" := by
  obtain ⟨b, hbb⟩ := Option.ne_none_iff_exists'.mp hb
  refine ⟨_, buildTrackEntry_ok hbb,
    ⟨List.insertionSort (fun a b => a ≤ b) data.cues, List.perm_insertionSort _ _, ?_, rfl⟩,
    ?_, rfl, by norm_num [cueSampleRate], ?_, by decide⟩
  · haveI : IsTotal Int (fun a b => a ≤ b) := ⟨fun a b => le_total a b⟩
    haveI : IsTrans Int (fun a b => a ≤ b) := ⟨fun a b c h1 h2 => le_trans h1 h2⟩
    exact List.sorted_insertionSort _ data.cues
  · intro sr p
    show fmtFixed 3 (cueSeconds sr p) = _
    rw [cueSeconds_eq_div]
  · intro n hn
    simp [cueSampleRate, hn]

/-- A concrete track for the C5 witness: samplerate 44100, two cues. -/
def cueRec : TrackRecord :=
  { baseRec with samplerate := some 44100, cues := [88200, 100] }

/-- Witness for C5 at a concrete track with cues `[88200, 100]`. -/
theorem build_xml_cue_position_marks_witness :
    (cueRec.bpm ≠ none) ∧
    (∃ e, buildTrackEntry 7 cueRec = Except.ok e ∧
      (∃ ps : List Int, ps.Perm cueRec.cues ∧ ps.Pairwise (fun a b => a ≤ b) ∧
        e.marks = ps.map (markOf cueRec.samplerate)) ∧
      (∀ (sr : Option Int) (p : Int),
        (markOf sr p).start = fmtFixed 3 (((p : Rat) / 2) / cueSampleRate sr)) ∧
      cueSampleRate none = 44100 ∧ cueSampleRate (some 0) = 44100 ∧
      (∀ n : Int, n ≠ 0 → cueSampleRate (some n) = ((n : Int) : Rat)) ∧
      (markOf (some 44100) 88200).start = "1.000") :=
  ⟨by decide, build_xml_cue_position_marks 7 cueRec (by decide)⟩

/-- C7: a track id listed by a collection but absent from the metadata
mapping is still emitted as a `TRACK` reference (`Key`) under that
collection's NODE — including when the crate-mode bpm sort runs, whose key
lookup falls back to bpm 0 for missing ids — and `build_xml` completes. -/
theorem build_xml_dangling_track_reference (td : List (Nat × TrackRecord))
    (cs : List (String × CollectionData)) (m : Bool) (so : Option SortOrder)
    (hb : ∀ p ∈ td, p.2.bpm ≠ none)
    (name : String) (data : CollectionData) (hmem : (name, data) ∈ cs)
    (tid : Nat) (ht : tid ∈ data.tracks) :
    ∃ doc, (build_xml td cs m so).1 = Except.ok doc ∧
      ∃ node, node ∈ doc.playlists ∧ node.name = name ∧ toString tid ∈ node.trackKeys := by
  refine ⟨_, build_xml_ok td cs m so hb, (nodeStep td m so (name, data)).1, ?_, rfl, ?_⟩
  · exact List.mem_map_of_mem _ ((List.mem_insertionSort _).mpr hmem)
  · exact List.mem_map_of_mem _ ((orderTracks_perm td m so data.tracks).mem_iff.mpr ht)

/-- The C7 witness fixtures: track 99 is dangling (only track 1 has
metadata) and the crate-mode ascending bpm sort is requested. -/
def tdW7 : List (Nat × TrackRecord) := [(1, { baseRec with bpm := some 2 })]

def csW7 : List (String × CollectionData) := [("C", ⟨7, [99, 1]⟩)]

/-- Witness for C7: the dangling id 99 is still referenced under "C". -/
theorem build_xml_dangling_track_reference_witness :
    (∀ p ∈ tdW7, p.2.bpm ≠ none) ∧
    ("C", (⟨7, [99, 1]⟩ : CollectionData)) ∈ csW7 ∧
    (99 : Nat) ∈ (⟨7, [99, 1]⟩ : CollectionData).tracks ∧
    (∃ doc, (build_xml tdW7 csW7 false (some SortOrder.asc)).1 = Except.ok doc ∧
      ∃ node, node ∈ doc.playlists ∧ node.name = "C" ∧
        toString (99 : Nat) ∈ node.trackKeys) :=
  ⟨by decide, by decide, by decide,
    build_xml_dangling_track_reference tdW7 csW7 false (some SortOrder.asc) (by decide)
      "C" ⟨7, [99, 1]⟩ (by decide) 99 (by decide)⟩

theorem dedupFirst_eq_self {l : List String} (h : l.Nodup) : dedupFirst l = l := by
  induction l with
  | nil => rfl
  | cons n rest ih =>
    rw [dedupFirst, ih (List.Nodup.of_cons h)]
    congr 1
    apply List.filter_eq_self.mpr
    intro m hm
    simp only [decide_eq_true_eq]
    exact fun he => (List.nodup_cons.mp h).1 (he ▸ hm)

theorem addTrackRow_fst (cd : List (String × CollectionData)) (name : String) (tid : Nat) :
    (addTrackRow cd name tid).map Prod.fst = cd.map Prod.fst := by
  simp only [addTrackRow, List.map_map]
  have : (Prod.fst ∘ fun p : String × CollectionData =>
      if p.1 = name then (p.1, { p.2 with tracks := p.2.tracks ++ [tid] }) else p)
      = Prod.fst := by
    funext p; by_cases h : p.1 = name <;> simp [h]
  rw [this]

theorem linkStep_fst (cd0 : List (String × CollectionData))
    (st : List (String × CollectionData) × List Nat) (row : Nat × Nat) :
    ((linkStep cd0 st row).1).map Prod.fst = st.1.map Prod.fst := by
  unfold linkStep
  cases idToName cd0 row.1 with
  | none => rfl
  | some name => by_cases he : name = "" <;> simp [he, addTrackRow_fst]

theorem foldl_linkStep_fst (cd0 : List (String × CollectionData)) (rows : List (Nat × Nat)) :
    ∀ st, ((rows.foldl (linkStep cd0) st).1).map Prod.fst = st.1.map Prod.fst := by
  induction rows with
  | nil => intro st; rfl
  | cons r rest ih => intro st; rw [List.foldl_cons, ih, linkStep_fst]

/-- The names of the returned mapping are exactly the deduplicated selected
names, whatever the membership rows contain. -/
theorem get_collections_names (db : List (String × Nat)) (link : List (Nat × Nat))
    (io : Option (List String)) (ex : List String) :
    (get_collections db link io ex).1.map Prod.fst = dedupFirst (final_names db io ex) := by
  unfold get_collections
  by_cases h : (final_names db io ex).isEmpty
  · rw [if_pos h, List.isEmpty_iff.mp h]
    rfl
  · rw [if_neg h, foldl_linkStep_fst]
    simp [initCollections, List.map_map, Function.comp_def]

/-- C6: the name-selection policy of `get_collections`: include names keep
exactly those that exist in the database (unknown names silently dropped),
else a non-empty exclude set keeps the database names outside it, else all
names are kept; and an empty selected name set short-circuits to
`({}, set())` before the membership query. -/
theorem get_collections_name_selection (db : List (String × Nat)) (link : List (Nat × Nat))
    (incl excl : List String)
    (hdb : (db.map Prod.fst).Nodup) (hincl : incl.Nodup) :
    ((get_collections db link (some incl) excl).1.map Prod.fst
        = incl.filter (fun n => (db.lookup n).isSome)) ∧
    (¬ excl.isEmpty → (get_collections db link none excl).1.map Prod.fst
        = (db.map Prod.fst).filter (fun n => ¬ excl.contains n)) ∧
    (excl.isEmpty → (get_collections db link none excl).1.map Prod.fst = db.map Prod.fst) ∧
    (∀ io : Option (List String), final_names db io excl = [] →
        get_collections db link io excl = ([], [])) := by
  refine ⟨?_, ?_, ?_, ?_⟩
  · rw [get_collections_names]
    exact dedupFirst_eq_self (List.Nodup.filter _ hincl)
  · intro he
    rw [get_collections_names]
    show dedupFirst (final_names db none excl) = _
    unfold final_names
    rw [if_neg he]
    exact dedupFirst_eq_self (List.Nodup.filter _ hdb)
  · intro he
    rw [get_collections_names]
    show dedupFirst (final_names db none excl) = _
    unfold final_names
    rw [if_pos he]
    exact dedupFirst_eq_self hdb
  · intro io h
    unfold get_collections
    rw [h]
    rfl

/-- Witness for C6: database `{A, B}`, include `{B, Ghost}`, exclude `{A}`. -/
theorem get_collections_name_selection_witness :
    ((([("A", 1), ("B", 2)] : List (String × Nat)).map Prod.fst).Nodup) ∧
    ((["B", "Ghost"] : List String).Nodup) ∧
    (((get_collections [("A", 1), ("B", 2)] [(1, 10)] (some ["B", "Ghost"]) ["A"]).1.map
          Prod.fst
        = (["B", "Ghost"] : List String).filter
            (fun n => (([("A", 1), ("B", 2)] : List (String × Nat)).lookup n).isSome)) ∧
    (¬ (["A"] : List String).isEmpty →
        (get_collections [("A", 1), ("B", 2)] [(1, 10)] none ["A"]).1.map Prod.fst
          = (([("A", 1), ("B", 2)] : List (String × Nat)).map Prod.fst).filter
              (fun n => ¬ (["A"] : List String).contains n)) ∧
    ((["A"] : List String).isEmpty →
        (get_collections [("A", 1), ("B", 2)] [(1, 10)] none ["A"]).1.map Prod.fst
          = ([("A", 1), ("B", 2)] : List (String × Nat)).map Prod.fst) ∧
    (∀ io : Option (List String), final_names [("A", 1), ("B", 2)] io ["A"] = [] →
        get_collections [("A", 1), ("B", 2)] [(1, 10)] io ["A"] = ([], []))) :=
  ⟨by decide, by decide,
    get_collections_name_selection [("A", 1), ("B", 2)] [(1, 10)] ["B", "Ghost"] ["A"]
      (by decide) (by decide)⟩

theorem dictInsert_fst (m : List (Nat × TrackRecord)) (k : Nat) (v : TrackRecord) :
    (dictInsert m k v).map Prod.fst =
      if k ∈ m.map Prod.fst then m.map Prod.fst else m.map Prod.fst ++ [k] := by
  unfold dictInsert
  by_cases h : k ∈ m.map Prod.fst
  · rw [if_pos h, if_pos h, List.map_map]
    have : (Prod.fst ∘ fun p : Nat × TrackRecord => if p.1 = k then (k, v) else p)
        = Prod.fst := by
      funext p; by_cases hp : p.1 = k <;> simp [hp]
    rw [this]
  · rw [if_neg h, if_neg h]
    simp

theorem mem_fst_dictInsert_of_mem {a : Nat} (m : List (Nat × TrackRecord))
    (k : Nat) (v : TrackRecord) (h : a ∈ m.map Prod.fst) :
    a ∈ (dictInsert m k v).map Prod.fst := by
  rw [dictInsert_fst]
  by_cases hk : k ∈ m.map Prod.fst <;> simp [hk, h]

theorem mem_fst_dictInsert_self (m : List (Nat × TrackRecord)) (k : Nat) (v : TrackRecord) :
    k ∈ (dictInsert m k v).map Prod.fst := by
  rw [dictInsert_fst]
  by_cases hk : k ∈ m.map Prod.fst <;> simp [hk]

theorem foldl_insert_keys_mono (rows : List LibRow) :
    ∀ (m : List (Nat × TrackRecord)) (a : Nat), a ∈ m.map Prod.fst →
      a ∈ (rows.foldl (fun m r => dictInsert m r.id (mkRecord r)) m).map Prod.fst := by
  induction rows with
  | nil => intro m a h; exact h
  | cons r rest ih =>
    intro m a h
    exact ih _ _ (mem_fst_dictInsert_of_mem _ _ _ h)

theorem foldl_insert_keys_mem (rows : List LibRow) :
    ∀ (m : List (Nat × TrackRecord)) (r : LibRow), r ∈ rows →
      r.id ∈ (rows.foldl (fun m r => dictInsert m r.id (mkRecord r)) m).map Prod.fst := by
  induction rows with
  | nil => intro m r h; cases h
  | cons r0 rest ih =>
    intro m r h
    rw [List.foldl_cons]
    rcases List.mem_cons.mp h with rfl | h'
    · exact foldl_insert_keys_mono rest _ _ (mem_fst_dictInsert_self ..)
    · exact ih _ _ h'

theorem foldl_insert_cues_nil (rows : List LibRow) :
    ∀ (m : List (Nat × TrackRecord)), (∀ p ∈ m, p.2.cues = []) →
      ∀ p ∈ rows.foldl (fun m r => dictInsert m r.id (mkRecord r)) m, p.2.cues = [] := by
  induction rows with
  | nil => intro m h; exact h
  | cons r rest ih =>
    intro m h
    rw [List.foldl_cons]
    apply ih
    intro p hp
    unfold dictInsert at hp
    by_cases hk : r.id ∈ m.map Prod.fst
    · rw [if_pos hk] at hp
      obtain ⟨q, hq, hpq⟩ := List.mem_map.mp hp
      by_cases hq1 : q.1 = r.id
      · rw [← hpq, if_pos hq1]
        rfl
      · rw [← hpq, if_neg hq1]
        exact h q hq
    · rw [if_neg hk] at hp
      rcases List.mem_append.mp hp with h1 | h2
      · exact h p h1
      · rw [List.mem_singleton.mp h2]
        rfl

/-- C8: `get_track_details` never raises: an empty id set returns `{}`
with no query issued (the result does not depend on either query's
outcome), and a failing cues query after a successful metadata query
returns exactly the records accumulated so far — the same mapping the
empty cue result would give, every record's cue list still empty, with one
entry reachable per fetched metadata row id. -/
theorem get_track_details_partial_results (ids : List Nat) (rows : List LibRow)
    (err : String) :
    (∀ (mq : Except String (List LibRow)) (cq : Except String (List CueRow)),
        get_track_details [] mq cq = []) ∧
    (get_track_details ids (Except.ok rows) (Except.error err)
        = get_track_details ids (Except.ok rows) (Except.ok [])) ∧
    (∀ p ∈ get_track_details ids (Except.ok rows) (Except.error err), p.2.cues = []) ∧
    (¬ ids.isEmpty = true → ∀ r ∈ rows,
        r.id ∈ (get_track_details ids (Except.ok rows) (Except.error err)).map Prod.fst) := by
  refine ⟨fun mq cq => rfl, ?_, ?_, ?_⟩
  · unfold get_track_details
    by_cases h : ids.isEmpty <;> simp [h]
  · unfold get_track_details
    by_cases h : ids.isEmpty
    · simp [h]
    · simp only [h, Bool.false_eq_true, if_false]
      exact foldl_insert_cues_nil rows [] (fun p hp => absurd hp (List.not_mem_nil p))
  · intro h r hr
    unfold get_track_details
    simp only [if_neg h]
    exact foldl_insert_keys_mem rows [] r hr
